import Mathlib

/-!
# Verification of the gmail-tui session core (`src/main.go`)

Shallow embedding of the program's data model and operations:

* base64 URL decoding (`encoding/base64`, `base64.URLEncoding.DecodeString`),
  used by the body extractor;
* the MIME part tree (`gmail.MessagePart`) and the body extractor
  `getMessageBody`;
* header scanning and date parsing used by `Model.fetchEmails`, and the
  fetch task itself;
* the Bubble Tea session model (`Model`), its reducer `Model.Update`, and
  the branch structure of `Model.View`.

Machine integers are modelled as `Int`/`Nat` (no value in this program
approaches overflow); fallible operations return `Option`/`Except`.
-/

/-! ## base64 URL decoding

Model of Go's `base64.URLEncoding.DecodeString`: alphabet `A-Z a-z 0-9 - _`,
`=` padding required, decoding fails on any other character, on a length
that is not a multiple of four, and on padding occurring before the final
quantum.  Go's decoder skips `\r` and `\n`; we filter them up front.
Decoded bytes are represented as `Nat`s below 256 and repacked into a
`String` (Go's `string(data)` is a raw byte copy; byte values below 256 map
injectively to `Char`s, so string equality agrees with byte equality). -/

def b64UrlVal (c : Char) : Option Nat :=
  if 'A' ≤ c ∧ c ≤ 'Z' then some (c.toNat - 65)
  else if 'a' ≤ c ∧ c ≤ 'z' then some (c.toNat - 97 + 26)
  else if '0' ≤ c ∧ c ≤ '9' then some (c.toNat - 48 + 52)
  else if c = '-' then some 62
  else if c = '_' then some 63
  else none

def b64Bytes : List Char → Option (List Nat)
  | [] => some []
  | a :: b :: c :: d :: rest => do
    let va ← b64UrlVal a
    let vb ← b64UrlVal b
    if c = '=' then
      if d = '=' ∧ rest = [] then some [va * 4 + vb / 16] else none
    else do
      let vc ← b64UrlVal c
      if d = '=' then
        if rest = [] then some [va * 4 + vb / 16, (vb % 16) * 16 + vc / 4]
        else none
      else do
        let vd ← b64UrlVal d
        let tail ← b64Bytes rest
        some ((va * 4 + vb / 16) :: ((vb % 16) * 16 + vc / 4) ::
              ((vc % 4) * 64 + vd) :: tail)
  | _ => none

def base64UrlDecode (s : String) : Option String :=
  (b64Bytes (s.data.filter (fun c => c ≠ '\n' ∧ c ≠ '\r'))).map
    (fun bs => String.mk (bs.map Char.ofNat))

/-! ## The MIME part tree and the body extractor

`gmail.MessagePart` exposes `MimeType`, `Headers`, `Body` (a nullable
`MessagePartBody` whose `Data` is the base64url payload) and `Parts`
(a slice of child parts).  A nil `Parts` slice and an empty one behave
identically in `getMessageBody` (the loop body never runs and
`len(payload.Parts) > 0` is false), so `parts` is a plain list. -/

structure MessagePartHeader where
  name : String
  value : String
deriving Repr, DecidableEq

structure MessagePartBody where
  data : String
deriving Repr, DecidableEq

inductive MessagePart : Type where
  | mk (mimeType : String) (headers : List MessagePartHeader)
       (body : Option MessagePartBody) (parts : List MessagePart) : MessagePart

def MessagePart.mimeType : MessagePart → String
  | .mk t _ _ _ => t

def MessagePart.headers : MessagePart → List MessagePartHeader
  | .mk _ hs _ _ => hs

def MessagePart.body : MessagePart → Option MessagePartBody
  | .mk _ _ b _ => b

def MessagePart.parts : MessagePart → List MessagePart
  | .mk _ _ _ ps => ps

/-- The data string a part offers for decoding: present iff `Body != nil`
and `Body.Data != ""` (the guard of both decode sites in
`getMessageBody`). -/
def inlineDataOpt : Option MessagePartBody → Option String
  | some b => if b.data ≠ "" then some b.data else none
  | none => none

/-- Step 1 of `getMessageBody` (src/main.go:268-273): the root's inline
payload, `some` iff the body is present, its data nonempty, and base64url
decoding succeeds; in every other case the Go code falls through. -/
def inlineContent (p : MessagePart) : Option String :=
  (inlineDataOpt p.body).bind base64UrlDecode

/-- The data a child part offers in the `text/plain` scan
(src/main.go:277): present iff the part has mime type `"text/plain"`,
a non-nil body and nonempty data. -/
def plainData (p : MessagePart) : Option String :=
  if p.mimeType = "text/plain" then inlineDataOpt p.body else none

/-- One candidate of the `text/plain` scan: its decoded data, `none` when
the part does not qualify or decoding fails (in which case the Go loop
continues with the next part). -/
def decPlain (p : MessagePart) : Option String :=
  (plainData p).bind base64UrlDecode

/-- The `for _, part := range payload.Parts` loop of `getMessageBody`
(src/main.go:276-283): return the first successfully decoded `text/plain`
part, `none` if the scan falls off the end. -/
def findPlainPart : List MessagePart → Option String
  | [] => none
  | p :: rest =>
    match decPlain p with
    | some s => some s
    | none => findPlainPart rest

/-- `getMessageBody` (src/main.go:267-290): inline content of the root if
decodable, else the first decodable `text/plain` child, else recurse into
the first child, else `""`. -/
def getMessageBody : MessagePart → String
  | .mk mt hs b [] =>
    (match inlineContent (.mk mt hs b []) with
     | some s => s
     | none => "")
  | .mk mt hs b (q :: rest) =>
    match inlineContent (.mk mt hs b (q :: rest)) with
    | some s => s
    | none =>
      match findPlainPart (q :: rest) with
      | some s => s
      | none => getMessageBody q

/-- All data strings `getMessageBody` can ever hand to the base64 decoder
on input `p`: the root's inline data, the data of the `text/plain`
children, and recursively the same for the first child.  (When every
decode fails the extractor attempts exactly this set.) -/
def triedDatas : MessagePart → List String
  | .mk _ _ b [] => (inlineDataOpt b).toList
  | .mk _ _ b (q :: rest) =>
    (inlineDataOpt b).toList ++ (q :: rest).filterMap plainData ++ triedDatas q

/-- Length of the chain of first children below `p` — the only path the
recursion of `getMessageBody` ever descends. -/
def firstChildDepth : MessagePart → Nat
  | .mk _ _ _ [] => 0
  | .mk _ _ _ (q :: _) => firstChildDepth q + 1

/-- `getMessageBody` with an explicit recursion budget: `none` means the
budget was exhausted before the walk finished.  Used to state that the
recursion terminates on every finite tree. -/
def getMessageBodyFuel : Nat → MessagePart → Option String
  | 0, _ => none
  | n + 1, p =>
    match inlineContent p with
    | some s => some s
    | none =>
      match findPlainPart p.parts with
      | some s => some s
      | none =>
        match p.parts with
        | q :: _ => getMessageBodyFuel n q
        | [] => some ""

/-! ## Header extraction and date parsing (`Model.fetchEmails`, src/main.go:305-325)

`fetchEmails` reads the `From`, `Subject` and `Date` headers by exact,
case-sensitive name, the last occurrence winning.  The `Date` value is
parsed with `time.Parse` against layout `"Mon, 2 Jan 2006 15:04:05 -0700"`
and, failing that, `"Mon, 02 Jan 2006 15:04:05 -0700"`; if both fail the
previously accumulated value (initially Go's zero `time.Time`,
0001-01-01 00:00:00 +0000) is kept. -/

structure GoTime where
  year : Nat
  month : Nat
  day : Nat
  hour : Nat
  minute : Nat
  second : Nat
  zoneMinutes : Int
deriving Repr, DecidableEq

/-- Go's zero `time.Time`: January 1, year 1, 00:00:00 UTC. -/
def goZeroTime : GoTime := ⟨1, 1, 1, 0, 0, 0, 0⟩

def digitVal (c : Char) : Option Nat :=
  if c.isDigit then some (c.toNat - 48) else none

def shortDayNames : List String :=
  ["Sun", "Mon", "Tue", "Wed", "Thu", "Fri", "Sat"]

def shortMonthNames : List String :=
  ["Jan", "Feb", "Mar", "Apr", "May", "Jun",
   "Jul", "Aug", "Sep", "Oct", "Nov", "Dec"]

/-- Day-of-month field: layout `"2"` accepts one or two digits, layout
`"02"` exactly two. -/
def parseDayField (twoDigit : Bool) (s : String) : Option Nat :=
  match s.data with
  | [a] => if twoDigit then none else digitVal a
  | [a, b] => do
    let x ← digitVal a
    let y ← digitVal b
    pure (x * 10 + y)
  | _ => none

def parse2Digits : List Char → Option Nat
  | [a, b] => do
    let x ← digitVal a
    let y ← digitVal b
    pure (x * 10 + y)
  | _ => none

/-- `"15:04:05"`: two-digit hour, minute and second, range-checked as in
Go's `time.Parse`. -/
def parseClock (s : String) : Option (Nat × Nat × Nat) :=
  match s.splitOn ":" with
  | [hh, mm, ss] => do
    let h ← parse2Digits hh.data
    let mi ← parse2Digits mm.data
    let se ← parse2Digits ss.data
    if h ≤ 23 ∧ mi ≤ 59 ∧ se ≤ 59 then pure (h, mi, se) else none
  | _ => none

/-- `"-0700"`: a sign and four digits, yielding a zone offset in minutes. -/
def parseZone (s : String) : Option Int :=
  match s.data with
  | [sign, h1, h2, m1, m2] => do
    let a ← digitVal h1
    let b ← digitVal h2
    let c ← digitVal m1
    let d ← digitVal m2
    let mins : Int := ((a * 10 + b) * 60 + (c * 10 + d) : Nat)
    if sign = '+' then pure mins
    else if sign = '-' then pure (-mins)
    else none
  | _ => none

def isLeapYear (y : Nat) : Bool :=
  y % 4 = 0 ∧ (y % 100 ≠ 0 ∨ y % 400 = 0)

def daysInMonth (m y : Nat) : Nat :=
  if m = 2 then (if isLeapYear y then 29 else 28)
  else if m = 4 ∨ m = 6 ∨ m = 9 ∨ m = 11 then 30
  else 31

/-- `time.Parse` specialised to the layout
`"Mon, 2 Jan 2006 15:04:05 -0700"` (`twoDigitDay = false`) or
`"Mon, 02 Jan 2006 15:04:05 -0700"` (`twoDigitDay = true`). -/
def parseDateLayout (twoDigitDay : Bool) (s : String) : Option GoTime :=
  match s.splitOn ", " with
  | [wd, rest] =>
    if wd ∈ shortDayNames then
      match rest.splitOn " " with
      | [dayS, monS, yearS, clockS, zoneS] => do
        let day ← parseDayField twoDigitDay dayS
        let month ← (shortMonthNames.findIdx? (· = monS)).map (· + 1)
        let year ← match yearS.data with
          | [a, b, c, d] => do
            let w ← digitVal a
            let x ← digitVal b
            let y ← digitVal c
            let z ← digitVal d
            pure (w * 1000 + x * 100 + y * 10 + z)
          | _ => none
        let clock ← parseClock clockS
        let zm ← parseZone zoneS
        if 1 ≤ day ∧ day ≤ daysInMonth month year then
          pure ⟨year, month, day, clock.1, clock.2.1, clock.2.2, zm⟩
        else none
      | _ => none
    else none
  | _ => none

/-- The `case "Date"` branch (src/main.go:314-319): first layout wins,
second is tried on failure, and on double failure the accumulator keeps
its previous value. -/
def parseDateHeader (v : String) (prev : GoTime) : GoTime :=
  match parseDateLayout false v with
  | some d => d
  | none =>
    match parseDateLayout true v with
    | some d => d
    | none => prev

/-- The header loop of `fetchEmails` (src/main.go:308-321): fold over the
headers in order, the accumulator being `(from, subject, date)` with
initial value `("", "", zero time)`. -/
def scanHeaders : List MessagePartHeader → String × String × GoTime →
    String × String × GoTime
  | [], acc => acc
  | h :: rest, (f, s, d) =>
    scanHeaders rest
      (if h.name = "From" then (h.value, s, d)
       else if h.name = "Subject" then (f, h.value, d)
       else if h.name = "Date" then (f, s, parseDateHeader h.value d)
       else (f, s, d))

/-! ## The fetch task (`Model.fetchEmails`, src/main.go:292-337) -/

structure Email where
  id : String
  fromAddr : String
  subject : String
  date : GoTime
  body : String
deriving Repr, DecidableEq

/-- Normalisation of one fetched message (src/main.go:305-333): scan the
headers, substitute `"(no subject)"` for an empty subject, and extract the
body from the payload tree. -/
def buildEmail (id : String) (payload : MessagePart) : Email :=
  let acc := scanHeaders payload.headers ("", "", goZeroTime)
  { id := id
    fromAddr := acc.1
    subject := if acc.2.1 = "" then "(no subject)" else acc.2.1
    date := acc.2.2
    body := getMessageBody payload }

/-- One entry of `ListMessagesResponse.Messages`. -/
structure MessageRef where
  id : String
deriving Repr, DecidableEq

/-- A full message as returned by `Users.Messages.Get(..).Format("full")`. -/
structure GmailMessage where
  payload : MessagePart

/-- The provider handle, specified at its interface: the outcome of the
one listing call `Users.Messages.List("me").Q("").MaxResults(20).Do()` and
the outcome of `Users.Messages.Get("me", id)` for each id. -/
structure GmailSvc where
  listRes : Except String (List MessageRef)
  getRes : String → Except String GmailMessage

/-- The messages carried through the Bubble Tea loop: window resizes, key
presses (identified by their key string, as matched by `key.Matches`),
`EmailsMsg`, `errMsg` and `spinner.TickMsg`. -/
inductive Msg where
  | windowSize (width height : Int)
  | key (k : String)
  | emails (l : List Email)
  | err (e : String)
  | spinnerTick

/-- The `for _, msg := range r.Messages` loop (src/main.go:298-334): a
failed `Get` is skipped with `continue`, a successful one is normalised
and appended. -/
def fetchLoop (svc : GmailSvc) : List MessageRef → List Email
  | [] => []
  | r :: rest =>
    match svc.getRes r.id with
    | .error _ => fetchLoop svc rest
    | .ok msg => buildEmail r.id msg.payload :: fetchLoop svc rest

/-- `Model.fetchEmails` (src/main.go:292-337): a failed listing call is
returned as `errMsg`; otherwise the per-message loop runs and the result —
possibly empty — is returned as `EmailsMsg`. -/
def fetchEmails (svc : GmailSvc) : Msg :=
  match svc.listRes with
  | .error e => .err e
  | .ok refs => .emails (fetchLoop svc refs)

/-! ## Key bindings (`keyMap`, `NewKeyMap`, src/main.go:73-109)

`key.Matches` succeeds iff the pressed key's string equals one of the
binding's key strings. -/

structure Binding where
  keys : List String
deriving Repr, DecidableEq

structure KeyMap where
  up : Binding
  down : Binding
  select : Binding
  back : Binding
  quit : Binding
  help : Binding
  fetch : Binding
  pageUp : Binding
  pageDown : Binding
deriving Repr, DecidableEq

/-- `NewKeyMap` (src/main.go:97-109). -/
def newKeyMap : KeyMap where
  up := ⟨["up", "k"]⟩
  down := ⟨["down", "j"]⟩
  select := ⟨["enter"]⟩
  back := ⟨["esc"]⟩
  quit := ⟨["Q", "ctrl+c"]⟩
  help := ⟨["?"]⟩
  fetch := ⟨["r"]⟩
  pageUp := ⟨["pgup"]⟩
  pageDown := ⟨["pgdown"]⟩

/-- `key.Matches(msg, binding)`. -/
def bindingMatches (k : String) (b : Binding) : Bool :=
  b.keys.contains k

/-! ## The list component (bubbles `list.Model`)

Model of the external bubbles list restricted to the state the claims
observe: the item sequence, the selection cursor and the size set by
`SetWidth`/`SetHeight`.  Filtering is modelled as inactive and pagination
as a single page (the proofs below never enter filter mode and never
depend on page layout); under that restriction `SelectedItem` is the item
at the cursor and `Update` moves the cursor on the list's up/down keys and
leaves the state unchanged on every other message. -/

structure ListModel where
  items : List Email
  cursor : Nat
  width : Int
  height : Int
deriving Repr, DecidableEq

/-- bubbles `list.Model.SelectedItem`: the visible item at the current
index, `none` when out of range. -/
def ListModel.selectedItem (l : ListModel) : Option Email :=
  l.items[l.cursor]?

/-- bubbles `list.Model.SetItems`. -/
def ListModel.setItems (l : ListModel) (items : List Email) : ListModel :=
  { l with items := items }

/-- bubbles `list.Model.Update` under the restriction above. -/
def listUpdate (l : ListModel) (msg : Msg) : ListModel :=
  match msg with
  | .key k =>
    if k = "up" ∨ k = "k" then { l with cursor := l.cursor - 1 }
    else if k = "down" ∨ k = "j" then
      (if l.cursor + 1 < l.items.length then { l with cursor := l.cursor + 1 }
       else l)
    else l
  | _ => l

/-! ## The viewport component (bubbles `viewport.Model`)

Direct model of the bubbles viewport: `Width`, `Height`, `YOffset` and the
content lines produced by `SetContent`.  Offsets are `Int`s as in Go. -/

structure Viewport where
  width : Int
  height : Int
  yOffset : Int
  lines : List String
deriving Repr, DecidableEq

/-- `maxYOffset() = max(0, len(m.lines) - m.Height)`. -/
def Viewport.maxYOffset (v : Viewport) : Int :=
  max 0 ((v.lines.length : Int) - v.height)

/-- `AtTop() = m.YOffset <= 0`. -/
def Viewport.atTop (v : Viewport) : Bool :=
  v.yOffset ≤ 0

/-- `AtBottom() = m.YOffset >= m.maxYOffset()`. -/
def Viewport.atBottom (v : Viewport) : Bool :=
  v.yOffset ≥ v.maxYOffset

/-- `SetYOffset(n)`: clamp `n` to `[0, maxYOffset]`. -/
def Viewport.setYOffset (v : Viewport) (n : Int) : Viewport :=
  { v with yOffset := min (max n 0) v.maxYOffset }

/-- `LineDown(n)`. -/
def Viewport.lineDown (v : Viewport) (n : Int) : Viewport :=
  if v.atBottom ∨ n = 0 ∨ v.lines.length = 0 then v
  else v.setYOffset (v.yOffset + n)

/-- `LineUp(n)`. -/
def Viewport.lineUp (v : Viewport) (n : Int) : Viewport :=
  if v.atTop ∨ n = 0 ∨ v.lines.length = 0 then v
  else v.setYOffset (v.yOffset - n)

/-- `ViewDown()`: scroll down one full viewport height. -/
def Viewport.viewDown (v : Viewport) : Viewport :=
  if v.atBottom then v else v.setYOffset (v.yOffset + v.height)

/-- `ViewUp()`. -/
def Viewport.viewUp (v : Viewport) : Viewport :=
  if v.atTop then v else v.setYOffset (v.yOffset - v.height)

/-- `HalfViewDown()`: scroll down half the viewport height (Go integer
division). -/
def Viewport.halfViewDown (v : Viewport) : Viewport :=
  if v.atBottom then v else v.setYOffset (v.yOffset + v.height.tdiv 2)

/-- `HalfViewUp()`. -/
def Viewport.halfViewUp (v : Viewport) : Viewport :=
  if v.atTop then v else v.setYOffset (v.yOffset - v.height.tdiv 2)

/-- `GotoBottom()`. -/
def Viewport.gotoBottom (v : Viewport) : Viewport :=
  v.setYOffset v.maxYOffset

/-- `strings.ReplaceAll(s, "\r\n", "\n")`: non-overlapping replacement,
left to right. -/
def normalizeNewlines : List Char → List Char
  | [] => []
  | '\r' :: '\n' :: rest => '\n' :: normalizeNewlines rest
  | c :: rest => c :: normalizeNewlines rest

/-- `strings.Split(s, "\n")`: the result is never empty (`""` yields
`[""]`). -/
def splitNewlines : List Char → List String
  | [] => [""]
  | '\n' :: rest => "" :: splitNewlines rest
  | c :: rest =>
    match splitNewlines rest with
    | l :: ls => String.mk (c :: l.data) :: ls
    | [] => [String.mk [c]]

/-- The content lines of a body string as computed by `SetContent`:
`\r\n` normalised to `\n`, then split on `\n`. -/
def contentLines (s : String) : List String :=
  splitNewlines (normalizeNewlines s.data)

/-- `SetContent(s)`: replace the lines and, only when the offset now lies
beyond the last line, clamp via `GotoBottom`; otherwise the offset is kept
as is. -/
def Viewport.setContent (v : Viewport) (s : String) : Viewport :=
  let ls := contentLines s
  let v2 := { v with lines := ls }
  if v2.yOffset > (ls.length : Int) - 1 then v2.gotoBottom else v2

/-- bubbles `viewport.Model.Update`: the default viewport key map; every
non-key message leaves the viewport unchanged. -/
def viewportUpdate (v : Viewport) (msg : Msg) : Viewport :=
  match msg with
  | .key k =>
    if k = "pgdown" ∨ k = " " ∨ k = "f" then v.viewDown
    else if k = "pgup" ∨ k = "b" then v.viewUp
    else if k = "d" ∨ k = "ctrl+d" then v.halfViewDown
    else if k = "u" ∨ k = "ctrl+u" then v.halfViewUp
    else if k = "down" ∨ k = "j" then v.lineDown 1
    else if k = "up" ∨ k = "k" then v.lineUp 1
    else v
  | _ => v

/-! ## The session model (`Model`, src/main.go:59-71) and its reducer -/

/-- The commands `Model.Update` can request: `nil`, `tea.Quit`,
`m.fetchEmails` and the spinner tick.  The library sub-updates called at
the bottom of `Update` never produce a quit or fetch command, so their
contribution is modelled as `none`. -/
inductive Cmd where
  | none
  | quit
  | fetch
  | spinnerTick
deriving Repr, DecidableEq

/-- The `Model` struct: the bubbles sub-models, the loading flag, the
selected mail (`nil` iff the session is not in Reading mode), the provider
handle, the sticky error field and the terminal dimensions.  `help` is
modelled by its only mutated field `ShowAll`; the spinner by a frame
counter. -/
structure GmailModel where
  list : ListModel
  helpShowAll : Bool
  keys : KeyMap
  spinner : Nat
  viewport : Viewport
  loading : Bool
  selectedMail : Option Email
  gmailSvc : GmailSvc
  err : Option String
  width : Int
  height : Int

/-- `initialModel` (src/main.go:111-145): empty 40×20 list, 80×20
viewport, `loading = true`, everything else zero. -/
def initialModel (svc : GmailSvc) : GmailModel where
  list := { items := [], cursor := 0, width := 40, height := 20 }
  helpShowAll := false
  keys := newKeyMap
  spinner := 0
  viewport := { width := 80, height := 20, yOffset := 0, lines := [] }
  loading := true
  selectedMail := none
  gmailSvc := svc
  err := none
  width := 0
  height := 0

/-- The trailing dispatch of `Model.Update` (src/main.go:218-226): the key
or system message is handed to the list when no mail is selected and to
the viewport otherwise. -/
def dispatch (m : GmailModel) (msg : Msg) : GmailModel × Cmd :=
  if m.selectedMail = none then
    ({ m with list := listUpdate m.list msg }, Cmd.none)
  else
    ({ m with viewport := viewportUpdate m.viewport msg }, Cmd.none)

/-- The Reading-mode key switch (src/main.go:167-179): only back,
page-up/down and line-up/down are consulted; any other key — including
quit and help — falls through unhandled. -/
def readingKey (m : GmailModel) (k : String) : GmailModel :=
  if bindingMatches k m.keys.back then { m with selectedMail := none }
  else if bindingMatches k m.keys.pageDown then
    { m with viewport := m.viewport.halfViewDown }
  else if bindingMatches k m.keys.pageUp then
    { m with viewport := m.viewport.halfViewUp }
  else if bindingMatches k m.keys.down then
    { m with viewport := m.viewport.lineDown 1 }
  else if bindingMatches k m.keys.up then
    { m with viewport := m.viewport.lineUp 1 }
  else m

/-- The `tea.KeyMsg` case of `Model.Update` (src/main.go:166-198).  With a
mail selected the Reading switch runs and `(m, nil)` is returned
immediately; otherwise quit, help, fetch and select are consulted in
order, and except for quit and fetch the message then reaches the trailing
dispatch. -/
def updateKey (m : GmailModel) (k : String) : GmailModel × Cmd :=
  if m.selectedMail.isSome then (readingKey m k, Cmd.none)
  else if bindingMatches k m.keys.quit then (m, Cmd.quit)
  else if bindingMatches k m.keys.help then
    dispatch { m with helpShowAll := !m.helpShowAll } (.key k)
  else if bindingMatches k m.keys.fetch then
    ({ m with loading := true }, Cmd.fetch)
  else if bindingMatches k m.keys.select then
    match m.list.selectedItem with
    | some mail =>
      dispatch
        { m with
          selectedMail := some mail
          viewport :=
            ({ m.viewport with
               width := m.width - 4,
               height := m.height - 7 }).setContent mail.body } (.key k)
    | none => dispatch m (.key k)
  else dispatch m (.key k)

/-- `Model.Update` (src/main.go:151-229). -/
def update (m : GmailModel) : Msg → GmailModel × Cmd
  | .windowSize w h =>
    let m1 := { m with
      width := w, height := h,
      list := { m.list with width := w, height := h - 6 } }
    let m2 :=
      if m1.selectedMail.isSome then
        { m1 with viewport :=
            { m1.viewport with width := w - 4, height := h - 7 } }
      else m1
    dispatch m2 (.windowSize w h)
  | .key k => updateKey m k
  | .emails l =>
    dispatch { m with loading := false, list := m.list.setItems l } (.emails l)
  | .err e => ({ m with err := some e }, Cmd.none)
  | .spinnerTick => ({ m with spinner := m.spinner + 1 }, Cmd.spinnerTick)

/-- The four screens `Model.View` can render. -/
inductive Screen where
  | errorScreen (e : String)
  | loadingScreen
  | readingScreen (mail : Email)
  | browsingScreen
deriving Repr, DecidableEq

/-- The branch structure of `Model.View` (src/main.go:231-262): the error
screen takes precedence over everything, then the loading screen, then the
detail reader, then the list.  The text produced inside each branch is
styling only (out of scope); we model which screen is rendered. -/
def view (m : GmailModel) : Screen :=
  match m.err with
  | some e => .errorScreen e
  | none =>
    if m.loading then .loadingScreen
    else
      match m.selectedMail with
      | some mail => .readingScreen mail
      | none => .browsingScreen

/-! ## Concrete inputs used by witnesses and counterexamples -/

/-- The spec's body-extraction example: a `text/html` child followed by a
`text/plain` child whose data decodes to `"hi"` (`"aGk="`). -/
def htmlPartEx : MessagePart := .mk "text/html" [] none []

def plainPartEx : MessagePart := .mk "text/plain" [] (some ⟨"aGk="⟩) []

def multipartEx : MessagePart :=
  .mk "multipart/alternative" [] none [htmlPartEx, plainPartEx]

/-- The spec's nesting example: a single nested part containing a nested
single part with inline text `"nested"` (`"bmVzdGVk"`). -/
def innerEx : MessagePart := .mk "text/plain" [] (some ⟨"bmVzdGVk"⟩) []

def midEx : MessagePart := .mk "multipart/alternative" [] none [innerEx]

def outerEx : MessagePart := .mk "multipart/mixed" [] none [midEx]

/-- A tree in which every tried data string fails base64url decoding
(`"%%%"` has an illegal character, `"!"` an illegal length). -/
def badPartEx : MessagePart :=
  .mk "text/plain" [] (some ⟨"%%%"⟩) [.mk "text/plain" [] (some ⟨"!"⟩) []]

/-- A provider whose listing succeeds with three ids and whose `Get`
fails for the middle one. -/
def svcC5 : GmailSvc where
  listRes := .ok [⟨"m1"⟩, ⟨"m2"⟩, ⟨"m3"⟩]
  getRes := fun id =>
    if id = "m2" then .error "get failed"
    else .ok ⟨.mk "text/plain" [⟨"From", "a@b"⟩, ⟨"Subject", "s1"⟩]
                (some ⟨"aGk="⟩) []⟩

/-- A provider that is never consulted by the reducer. -/
def svcEmptyEx : GmailSvc where
  listRes := .ok []
  getRes := fun _ => .error "unused"

def mail4Ex : Email :=
  { id := "1", fromAddr := "a@b", subject := "s", date := goZeroTime,
    body := "l1\nl2\nl3\nl4" }

/-- A session that has received a fetch error (`Failed`). -/
def failedModelEx : GmailModel :=
  { initialModel svcEmptyEx with loading := false, err := some "list failed" }

/-- A session in Reading mode whose viewport is scrolled to the bottom of
a three-line content at height 1. -/
def readingModelEx : GmailModel :=
  { initialModel svcEmptyEx with
    loading := false
    selectedMail := some mail4Ex
    viewport := { width := 76, height := 1, yOffset := 2, lines := ["l1", "l2", "l3"] } }

/-- A Browsing session whose (reused) viewport still holds a nonzero
scroll offset from an earlier read. -/
def browsingDirtyEx : GmailModel :=
  { initialModel svcEmptyEx with
    loading := false
    list := { items := [mail4Ex], cursor := 0, width := 40, height := 20 }
    viewport := { width := 76, height := 5, yOffset := 2, lines := ["x"] }
    width := 80
    height := 24 }

/-- A Browsing session with a fresh viewport (offset 0). -/
def browsingCleanEx : GmailModel :=
  { initialModel svcEmptyEx with
    loading := false
    list := { items := [mail4Ex], cursor := 0, width := 40, height := 20 }
    width := 80
    height := 24 }

/-! ## Helper lemmas -/

/-- Induction along the only path `getMessageBody` descends: the chain of
first children. -/
theorem MessagePart.spineInduction {motive : MessagePart → Prop}
    (base : ∀ mt hs b, motive (.mk mt hs b []))
    (step : ∀ mt hs b q rest, motive q → motive (.mk mt hs b (q :: rest))) :
    ∀ p, motive p
  | .mk mt hs b [] => base mt hs b
  | .mk mt hs b (q :: rest) => step mt hs b q rest (spineInduction base step q)

/-- The translated `text/plain` scan returns the first child on which
`decPlain` succeeds. -/
theorem findPlainPart_eq_findSome (l : List MessagePart) :
    findPlainPart l = l.findSome? decPlain := by
  induction l with
  | nil => rfl
  | cons p rest ih =>
    cases h : decPlain p <;> simp [findPlainPart, List.findSome?_cons, h, ih]

/-- One-step unfolding of the fuelled extractor. -/
theorem getMessageBodyFuel_succ (n : Nat) (p : MessagePart) :
    getMessageBodyFuel (n + 1) p =
      match inlineContent p with
      | some s => some s
      | none =>
        match findPlainPart p.parts with
        | some s => some s
        | none =>
          match p.parts with
          | q :: _ => getMessageBodyFuel n q
          | [] => some "" := rfl

/-- The per-message loop drops exactly the messages whose `Get` failed and
keeps provider order. -/
theorem fetchLoop_eq_filterMap (svc : GmailSvc) (refs : List MessageRef) :
    fetchLoop svc refs = refs.filterMap (fun r =>
      ((svc.getRes r.id).toOption).map (fun gm => buildEmail r.id gm.payload)) := by
  induction refs with
  | nil => rfl
  | cons r rest ih =>
    cases h : svc.getRes r.id <;> simp [fetchLoop, h, ih, Except.toOption]

/-! ## Reducer helper lemmas -/

theorem dispatch_fst_err (m : GmailModel) (msg : Msg) :
    ((dispatch m msg).1).err = m.err := by
  unfold dispatch; split <;> rfl

theorem dispatch_fst_loading (m : GmailModel) (msg : Msg) :
    ((dispatch m msg).1).loading = m.loading := by
  unfold dispatch; split <;> rfl

theorem dispatch_fst_selectedMail (m : GmailModel) (msg : Msg) :
    ((dispatch m msg).1).selectedMail = m.selectedMail := by
  unfold dispatch; split <;> rfl

theorem readingKey_err (m : GmailModel) (k : String) :
    (readingKey m k).err = m.err := by
  unfold readingKey; split_ifs <;> rfl

theorem updateKey_fst_err (m : GmailModel) (k : String) :
    ((updateKey m k).1).err = m.err := by
  unfold updateKey
  split_ifs with h1 h2 h3 h4 h5
  · exact readingKey_err m k
  · rfl
  · exact dispatch_fst_err _ _
  · rfl
  · cases m.list.selectedItem <;> simp [dispatch_fst_err]
  · exact dispatch_fst_err _ _

/-- No branch of `Model.Update` writes `m.err` except the `errMsg` case,
which overwrites it with the incoming error. -/
theorem update_fst_err (m : GmailModel) (msg : Msg) :
    ((update m msg).1).err = match msg with | .err e => some e | _ => m.err := by
  cases msg with
  | windowSize w h => simp only [update]; rw [dispatch_fst_err]; split <;> rfl
  | key k => exact updateKey_fst_err m k
  | emails l => simp only [update]; rw [dispatch_fst_err]
  | err e => rfl
  | spinnerTick => rfl

/-- A set error field forces the error screen (`Model.View` checks
`m.err != nil` first). -/
theorem view_err (m : GmailModel) (e : String) (h : m.err = some e) :
    view m = Screen.errorScreen e := by
  simp [view, h]

/-- Pressing select on a Browsing session with a selected item: the mail
is stored, the viewport is resized to the terminal minus the chrome and
receives the mail's body; nothing else changes and no command is
requested. -/
theorem update_select (m : GmailModel) (mail : Email)
    (hk : m.keys = newKeyMap) (hb : m.selectedMail = none)
    (hsel : m.list.selectedItem = some mail) :
    update m (.key "enter") =
      ({ m with
         selectedMail := some mail
         viewport :=
           ({ m.viewport with
              width := m.width - 4,
              height := m.height - 7 }).setContent mail.body },
       Cmd.none) := by
  simp [update, updateKey, hb, hk, bindingMatches, newKeyMap, hsel, dispatch,
        viewportUpdate]

/-- Pressing back in Reading mode only clears the selected mail. -/
theorem update_back (m : GmailModel)
    (hk : m.keys = newKeyMap) (hs : m.selectedMail.isSome) :
    update m (.key "esc") = ({ m with selectedMail := none }, Cmd.none) := by
  simp [update, updateKey, readingKey, hs, hk, bindingMatches, newKeyMap]

/-! ## The claims -/

/-- C1: pressing refresh in the Failed state does issue exactly one Fetch
Task (`Cmd.fetch`) and sets the loading flag, but the claim's
recoverability part fails on the code: `m.err` is never cleared, so even
after the re-issued fetch succeeds (`EmailsMsg` arrives) the render
function still shows the error screen, never the list.  This theorem
evaluates the code at the failing input. -/
theorem refresh_from_failed_not_recoverable :
    (update failedModelEx (.key "r")).2 = Cmd.fetch ∧
    ((update failedModelEx (.key "r")).1).loading = true ∧
    ((update (update failedModelEx (.key "r")).1 (.emails [mail4Ex])).1).err
      = some "list failed" ∧
    view (update (update failedModelEx (.key "r")).1 (.emails [mail4Ex])).1
      = Screen.errorScreen "list failed" :=
  ⟨rfl, rfl, rfl, rfl⟩

/-- C2: when base64 decoding fails at every part the extractor ever tries
(the root's inline data, the `text/plain` children along the walk, and so
on down the first-child chain), `getMessageBody` returns the empty
string — decode failure is recovered locally and is never fatal. -/
theorem undecodable_tree_empty_body (p : MessagePart)
    (h : ∀ s ∈ triedDatas p, base64UrlDecode s = none) :
    getMessageBody p = "" := by
  induction p using MessagePart.spineInduction with
  | base mt hs b =>
    have hinl : inlineContent (.mk mt hs b []) = none := by
      cases hb : inlineDataOpt b with
      | none => simp [inlineContent, MessagePart.body, hb]
      | some d =>
        have hd : d ∈ triedDatas (.mk mt hs b []) := by simp [triedDatas, hb]
        simp [inlineContent, MessagePart.body, hb, h d hd]
    simp [getMessageBody, hinl]
  | step mt hs b q rest ih =>
    have hinl : inlineContent (.mk mt hs b (q :: rest)) = none := by
      cases hb : inlineDataOpt b with
      | none => simp [inlineContent, MessagePart.body, hb]
      | some d =>
        have hd : d ∈ triedDatas (.mk mt hs b (q :: rest)) := by
          simp [triedDatas, hb]
        simp [inlineContent, MessagePart.body, hb, h d hd]
    have hfind : findPlainPart (q :: rest) = none := by
      rw [findPlainPart_eq_findSome]
      rw [List.findSome?_eq_none_iff]
      intro x hx
      cases hp : plainData x with
      | none => simp [decPlain, hp]
      | some d =>
        have hmem : d ∈ (q :: rest).filterMap plainData :=
          List.mem_filterMap.mpr ⟨x, hx, hp⟩
        have hd : d ∈ triedDatas (.mk mt hs b (q :: rest)) := by
          unfold triedDatas
          exact List.mem_append.mpr (Or.inl (List.mem_append.mpr (Or.inr hmem)))
        simp [decPlain, hp, h d hd]
    have hq : ∀ s ∈ triedDatas q, base64UrlDecode s = none := by
      intro s hs
      apply h
      simp [triedDatas]
      right; right; exact hs
    simp [getMessageBody, hinl, hfind, ih hq]

/-- Witness for C2: a tree whose two data strings (`"%%%"` and `"!"`) are
both undecodable extracts to `""`. -/
theorem undecodable_tree_empty_body_witness :
    (∀ s ∈ triedDatas badPartEx, base64UrlDecode s = none) ∧
    getMessageBody badPartEx = "" :=
  ⟨by decide, undecodable_tree_empty_body badPartEx (by decide)⟩

/-- C3: when the root carries no inline content and the immediate children
contain a decodable `text/plain` part, `getMessageBody` returns the
decoded data of the first such child (`List.findSome?` formalises
"first"). -/
theorem plain_child_extracted (p : MessagePart) (s : String)
    (h1 : inlineContent p = none)
    (h2 : p.parts.findSome? decPlain = some s) :
    getMessageBody p = s := by
  cases p with
  | mk mt hs b parts =>
    cases parts with
    | nil => simp [MessagePart.parts] at h2
    | cons q rest =>
      simp only [MessagePart.parts] at h2
      rw [← findPlainPart_eq_findSome] at h2
      simp [getMessageBody, h1, h2]

/-- Witness for C3: the spec's example `[text/html, text/plain "hi"]`
extracts to `"hi"`. -/
theorem plain_child_extracted_witness :
    inlineContent multipartEx = none ∧
    multipartEx.parts.findSome? decPlain = some "hi" ∧
    getMessageBody multipartEx = "hi" :=
  ⟨rfl, by decide, plain_child_extracted multipartEx "hi" rfl (by decide)⟩

/-- C4: when the root has no inline content and no decodable `text/plain`
child but does have children, `getMessageBody` recurses into the first
child and restarts the algorithm there. -/
theorem recurse_into_first_child (p q : MessagePart) (rest : List MessagePart)
    (h1 : inlineContent p = none)
    (h2 : p.parts.findSome? decPlain = none)
    (h3 : p.parts = q :: rest) :
    getMessageBody p = getMessageBody q := by
  cases p with
  | mk mt hs b parts =>
    simp only [MessagePart.parts] at h2 h3
    subst h3
    rw [← findPlainPart_eq_findSome] at h2
    simp [getMessageBody, h1, h2]

/-- Witness for C4: the spec's nesting example — a single nested part
containing a nested single part with inline text `"nested"` — extracts to
`"nested"` via the recursion. -/
theorem recurse_into_first_child_witness :
    inlineContent outerEx = none ∧
    outerEx.parts.findSome? decPlain = none ∧
    outerEx.parts = [midEx] ∧
    getMessageBody outerEx = "nested" := by
  refine ⟨rfl, by decide, rfl, ?_⟩
  rw [recurse_into_first_child outerEx midEx [] rfl (by decide) rfl]
  rfl

/-- C5: the fetch task fails as a whole iff the listing call fails; when
the listing succeeds, exactly the messages whose individual `Get` failed
are dropped and the rest are emitted in provider order (as an `EmailsMsg`,
even when the resulting list is empty). -/
theorem fetch_partial_success (svc : GmailSvc) :
    ((∃ e, fetchEmails svc = .err e) ↔ (∃ e, svc.listRes = .error e)) ∧
    (∀ refs, svc.listRes = .ok refs →
      fetchEmails svc = .emails (refs.filterMap (fun r =>
        ((svc.getRes r.id).toOption).map
          (fun gm => buildEmail r.id gm.payload)))) := by
  constructor
  · constructor
    · rintro ⟨e, he⟩
      cases h : svc.listRes with
      | error e2 => exact ⟨e2, rfl⟩
      | ok refs => simp [fetchEmails, h] at he
    · rintro ⟨e, he⟩
      exact ⟨e, by simp [fetchEmails, he]⟩
  · intro refs h
    simp [fetchEmails, h, fetchLoop_eq_filterMap]

/-- Witness for C5: of three listed messages the middle `Get` fails; the
other two come back normalised, in order. -/
theorem fetch_partial_success_witness :
    fetchEmails svcC5 = Msg.emails
      [{ id := "m1", fromAddr := "a@b", subject := "s1", date := goZeroTime,
         body := "hi" },
       { id := "m3", fromAddr := "a@b", subject := "s1", date := goZeroTime,
         body := "hi" }] := by
  have h := (fetch_partial_success svcC5).2 [⟨"m1"⟩, ⟨"m2"⟩, ⟨"m3"⟩] rfl
  rw [h]
  rfl

/-- C6: the claim fails on the code — in Reading mode the key switch
handles only back and the scroll keys and returns immediately, so a key
matching the quit binding (`"Q"` or `"ctrl+c"`) produces no quit command
and the help-toggle key leaves the help state unchanged, even though the
reading view's own footer advertises `?: help` and the README advertises
`Q/ctrl+c: Quit`.  This theorem evaluates the code at the failing
input. -/
theorem quit_help_dead_in_reading :
    (update readingModelEx (.key "Q")).2 ≠ Cmd.quit ∧
    (update readingModelEx (.key "ctrl+c")).2 ≠ Cmd.quit ∧
    update readingModelEx (.key "Q") = (readingModelEx, Cmd.none) ∧
    ((update readingModelEx (.key "?")).1).helpShowAll = false ∧
    ((update readingModelEx (.key "Q")).1).selectedMail = some mail4Ex :=
  ⟨by decide, by decide, rfl, rfl, rfl⟩

/-- Counterexample for C7: selecting a mail when the (reused) viewport
still holds scroll offset 2 from an earlier read enters Reading with
offset 2, not 0. -/
theorem select_does_not_reset_offset :
    ((update browsingDirtyEx (.key "enter")).1).selectedMail = some mail4Ex ∧
    ((update browsingDirtyEx (.key "enter")).1).viewport.yOffset ≠ 0 :=
  ⟨rfl, by decide⟩

/-- C7 (amended): pressing select on a Browsing session with a selected
item transitions to Reading with the viewport's scroll offset *unchanged*
(it is reset only by the `SetContent` clamp, not to 0) whenever the
previous offset is within the new content's line count; pressing back then
returns to Browsing with the entire list state — in particular the
selection index — unchanged. -/
theorem select_then_back_preserves (m : GmailModel) (mail : Email)
    (hk : m.keys = newKeyMap) (hb : m.selectedMail = none)
    (hsel : m.list.selectedItem = some mail)
    (hoff : m.viewport.yOffset ≤ ((contentLines mail.body).length : Int) - 1) :
    ((update m (.key "enter")).1).selectedMail = some mail ∧
    ((update m (.key "enter")).1).viewport.yOffset = m.viewport.yOffset ∧
    ((update (update m (.key "enter")).1 (.key "esc")).1).selectedMail = none ∧
    ((update (update m (.key "enter")).1 (.key "esc")).1).list = m.list := by
  have h1 := update_select m mail hk hb hsel
  have hvp : (({ m.viewport with
                 width := m.width - 4,
                 height := m.height - 7 } : Viewport).setContent mail.body).yOffset
      = m.viewport.yOffset := by
    have hle : ¬ (((contentLines mail.body).length : Int) - 1 < m.viewport.yOffset) := by
      omega
    simp [Viewport.setContent, hle]
  have h2 := update_back (update m (.key "enter")).1
    (by rw [h1]; exact hk) (by rw [h1]; rfl)
  refine ⟨by rw [h1], by rw [h1]; exact hvp, by rw [h2], by rw [h2, h1]⟩

/-- Witness for C7: from a Browsing session with a fresh viewport
(offset 0), select keeps offset 0 and back preserves the list state. -/
theorem select_then_back_preserves_witness :
    ((update browsingCleanEx (.key "enter")).1).selectedMail = some mail4Ex ∧
    ((update browsingCleanEx (.key "enter")).1).viewport.yOffset
      = browsingCleanEx.viewport.yOffset ∧
    ((update (update browsingCleanEx (.key "enter")).1 (.key "esc")).1).selectedMail
      = none ∧
    ((update (update browsingCleanEx (.key "enter")).1 (.key "esc")).1).list
      = browsingCleanEx.list :=
  select_then_back_preserves browsingCleanEx mail4Ex rfl rfl rfl (by decide)

/-- Counterexample for C8: resizing a Reading session (content 3 lines,
offset 2) to a larger viewport (height 20) leaves the offset at 2, above
the claimed bound `max(0, content_lines - h) = 0`. -/
theorem resize_reading_no_reclamp :
    ((update readingModelEx (.windowSize 80 27)).1).viewport.yOffset = 2 ∧
    ¬ (((update readingModelEx (.windowSize 80 27)).1).viewport.yOffset ≤
        max 0 ((((update readingModelEx (.windowSize 80 27)).1).viewport.lines.length : Int)
          - ((update readingModelEx (.windowSize 80 27)).1).viewport.height)) :=
  ⟨rfl, by decide⟩

/-- C8 (amended): a resize while in Reading updates the viewport's
dimensions to `(w-4, h-7)` but leaves `scroll_offset` and the content
lines unchanged — no re-clamping is performed, so the clamp invariant can
be violated after a resize that grows the viewport. -/
theorem resize_reading_keeps_offset (m : GmailModel) (w h : Int)
    (hs : m.selectedMail.isSome) :
    ((update m (.windowSize w h)).1).viewport =
      { m.viewport with width := w - 4, height := h - 7 } := by
  have hne : ¬ m.selectedMail = none := by
    cases hm : m.selectedMail with
    | none => rw [hm] at hs; simp at hs
    | some mail => simp
  simp [update, dispatch, hs, hne, viewportUpdate]

/-- Witness for C8 (amended): resizing the concrete Reading session to
100×50 gives a 96×43 viewport with offset and lines untouched. -/
theorem resize_reading_keeps_offset_witness :
    ((update readingModelEx (.windowSize 100 50)).1).viewport =
      { readingModelEx.viewport with width := 96, height := 43 } := by
  have h := resize_reading_keeps_offset readingModelEx 100 50 rfl
  simpa using h

/-- C9: once a fetch error is stored, no subsequent message resets `err`
to `nil`: after any event the error field still holds some error and the
render function shows the error screen (never the list), while a later
`EmailsMsg` merely clears the loading flag. -/
theorem fetch_error_sticky (m : GmailModel) (e : String) (msg : Msg)
    (h : m.err = some e) :
    (∃ e2, ((update m msg).1).err = some e2 ∧
      view (update m msg).1 = Screen.errorScreen e2) ∧
    ((update m (.emails [])).1).loading = false := by
  constructor
  · obtain ⟨e2, he2⟩ : ∃ e2, ((update m msg).1).err = some e2 := by
      rw [update_fst_err]
      cases msg <;> simp [h]
    exact ⟨e2, he2, view_err _ _ he2⟩
  · simp [update, dispatch_fst_loading]

/-- Witness for C9: the failed session keeps its error and error screen
across a refresh key press, and an `EmailsMsg` clears loading. -/
theorem fetch_error_sticky_witness :
    (∃ e2, ((update failedModelEx (.key "r")).1).err = some e2 ∧
      view (update failedModelEx (.key "r")).1 = Screen.errorScreen e2) ∧
    ((update failedModelEx (.emails [])).1).loading = false :=
  fetch_error_sticky failedModelEx "list failed" (.key "r") rfl

/-- C10: the body extractor terminates on every finite MIME tree: with a
fuel budget of one more than the depth of the first-child chain — the only
path the recursion descends — the fuelled extractor finishes and agrees
with `getMessageBody`. -/
theorem getMessageBody_terminating (p : MessagePart) :
    getMessageBodyFuel (firstChildDepth p + 1) p = some (getMessageBody p) := by
  induction p using MessagePart.spineInduction with
  | base mt hs b =>
    cases h : inlineContent (.mk mt hs b []) <;>
      simp [getMessageBodyFuel, getMessageBody, firstChildDepth,
            MessagePart.parts, findPlainPart, h]
  | step mt hs b q rest ih =>
    cases h1 : inlineContent (.mk mt hs b (q :: rest)) with
    | some s =>
      simp [getMessageBodyFuel, getMessageBody, firstChildDepth,
            MessagePart.parts, h1]
    | none =>
      cases h2 : findPlainPart (q :: rest) with
      | some s =>
        simp [getMessageBodyFuel, getMessageBody, firstChildDepth,
              MessagePart.parts, h1, h2]
      | none =>
        have hg : getMessageBody (MessagePart.mk mt hs b (q :: rest)) =
            getMessageBody q := by
          simp only [getMessageBody, h1, h2]
        rw [getMessageBodyFuel_succ]
        simp only [MessagePart.parts, h1, h2, firstChildDepth, hg, ih]
